import Mathlib

/-!
Shallow embedding of the contractor recommendation scorer of the Repairo
repository (src/frontend/src/pages/MaintenanceRequestDetail.jsx, the
useEffect at lines 96 to 138, over the provider roster shaped like
mockContractors in src/frontend/src/App.jsx).

Text is modelled as lists of characters; JavaScript numbers are modelled
as rationals; absent values (undefined or null) are modelled with Option.
The JavaScript stable sort (Array.prototype.sort is stable per ES2019)
with comparator (a, b) => b.valueScore - a.valueScore is modelled as
List.mergeSort with the boolean relation b.valueScore <= a.valueScore,
which is the stable descending sort by valueScore.
-/

namespace Repairo

/-- Text as a list of characters. -/
abbrev Str := List Char

/-- JavaScript toLowerCase, applied character by character. -/
def lower (s : Str) : Str := s.map Char.toLower

/-- JavaScript hay.includes(needle): needle occurs as a contiguous
substring of hay. -/
def includesStr (hay needle : Str) : Bool := decide (needle <:+: hay)

/-- The three service category literals the classifier can return. -/
inductive ServiceCategory
  | plumbing
  | electrical
  | general
deriving DecidableEq

/-- A provider price object with the three observed keys; a key can be
absent. Mirrors the prices objects of mockContractors in App.jsx. -/
structure PriceTable where
  plumbing : Option ℚ
  electrical : Option ℚ
  general : Option ℚ
deriving DecidableEq

/-- Lookup prices[k] for a category key k. -/
def PriceTable.get (pt : PriceTable) : ServiceCategory → Option ℚ
  | .plumbing => pt.plumbing
  | .electrical => pt.electrical
  | .general => pt.general

/-- A service provider record (the fields of mockContractors that the
scoring pipeline reads; rating and the prices object can be absent). -/
structure Provider where
  id : Str
  rating : Option ℚ
  areas : List Str
  prices : Option PriceTable
deriving DecidableEq

/-- The property fields the area filter reads (each can be absent;
the code reads propertyInfo.city, .address and .county with a fallback
to the empty string). -/
structure PropertyInfo where
  city : Option Str
  address : Option Str
  county : Option Str
deriving DecidableEq

/-- Keyword "toilet". -/
def toiletKw : Str := ['t', 'o', 'i', 'l', 'e', 't']

/-- Keyword "sink". -/
def sinkKw : Str := ['s', 'i', 'n', 'k']

/-- Keyword "plumb". -/
def plumbKw : Str := ['p', 'l', 'u', 'm', 'b']

/-- Keyword "light". -/
def lightKw : Str := ['l', 'i', 'g', 'h', 't']

/-- Keyword "elect". -/
def electKw : Str := ['e', 'l', 'e', 'c', 't']

/-- The plumbing keyword test on the lower-cased title:
t.includes(toilet) || t.includes(sink) || t.includes(plumb). -/
def hasPlumbingKw (title : Option Str) : Bool :=
  let t := lower (title.getD [])
  includesStr t toiletKw || includesStr t sinkKw || includesStr t plumbKw

/-- The electrical keyword test on the lower-cased title:
t.includes(light) || t.includes(elect). -/
def hasElectricalKw (title : Option Str) : Bool :=
  let t := lower (title.getD [])
  includesStr t lightKw || includesStr t electKw

/-- MaintenanceRequestDetail.jsx lines 98 to 103: the serviceKey IIFE.
Lower-case request?.title || the empty string, test the plumbing keywords
first, then the electrical keywords, else general. -/
def classifyService (title : Option Str) : ServiceCategory :=
  if hasPlumbingKw title then .plumbing
  else if hasElectricalKw title then .electrical
  else .general

/-- MaintenanceRequestDetail.jsx lines 108 to 111: the template literal
city + space + addr + space + county over the lower-cased property
fields, each defaulting to the empty string. -/
def areaStr (p : PropertyInfo) : Str :=
  lower (p.city.getD []) ++ [' '] ++ lower (p.address.getD []) ++ [' ']
    ++ lower (p.county.getD [])

/-- MaintenanceRequestDetail.jsx lines 106 to 114: when propertyInfo is
present, keep the providers one of whose areas occurs (lower-cased) in
the area string; when it is absent, keep the whole roster. -/
def inArea (roster : List Provider) (prop : Option PropertyInfo) : List Provider :=
  match prop with
  | none => roster
  | some p => roster.filter fun c => c.areas.any fun a => includesStr (areaStr p) (lower a)

/-- MaintenanceRequestDetail.jsx line 116: inArea.length > 0 ? inArea :
mockContractors — the zero-result fallback to the full roster. -/
def candidates (roster : List Provider) (prop : Option PropertyInfo) : List Provider :=
  if (inArea roster prop).length > 0 then inArea roster prop else roster

/-- JavaScript x || y on an optional number: 0 is falsy, so a present 0
falls through to y, as does an absent value. -/
def jsOr (x : Option ℚ) (y : ℚ) : ℚ :=
  match x with
  | some v => if v = 0 then y else v
  | none => y

/-- The quote c.prices?.[k]: absent when the prices object is absent or
the key is missing. -/
def priceAt (c : Provider) (k : ServiceCategory) : Option ℚ :=
  c.prices.bind fun pt => pt.get k

/-- MaintenanceRequestDetail.jsx lines 119 and 128:
c.prices?.[serviceKey] || c.prices?.general || 999. -/
def resolvedPrice (c : Provider) (k : ServiceCategory) : ℚ :=
  jsOr (priceAt c k) (jsOr (priceAt c .general) 999)

/-- The resolution chain as the words of the specification state it,
with nullish coalescing (??): a present quote is used even when it is
zero. Kept distinct from resolvedPrice, which models the || chain the
code uses, so the two can be compared. -/
def resolvedPriceNullish (c : Provider) (k : ServiceCategory) : ℚ :=
  (priceAt c k).getD ((priceAt c .general).getD 999)

/-- The resolved price of each candidate, in candidate order
(MaintenanceRequestDetail.jsx line 119). -/
def priceList (cands : List Provider) (k : ServiceCategory) : List ℚ :=
  cands.map fun c => resolvedPrice c k

/-- Math.min over a spread price array. Math.min of no arguments is
positive infinity; that value is never consumed (the pool is empty
exactly when the price list is), so the empty case is modelled as 0. -/
def minPrices : List ℚ → ℚ
  | [] => 0
  | p :: ps => ps.foldl min p

/-- Math.max over a spread price array; the empty case, never consumed,
is modelled as 0. -/
def maxPrices : List ℚ → ℚ
  | [] => 0
  | p :: ps => ps.foldl max p

/-- MaintenanceRequestDetail.jsx lines 122 to 125: normPrice. When all
prices coincide the guard returns 1 and the division is never reached;
otherwise lower price means higher score. -/
def normPrice (minP maxP p : ℚ) : ℚ :=
  if maxP = minP then 1 else (maxP - p) / (maxP - minP)

/-- A ranked candidate: the spread provider record with the resolved
price and the blended value score attached. -/
structure Scored where
  provider : Provider
  price : ℚ
  valueScore : ℚ
deriving DecidableEq

/-- MaintenanceRequestDetail.jsx lines 127 to 133: one candidate scored
against the pool minimum and maximum. ratingScore is (c.rating || 0)/5;
valueScore blends it with the price score, weights 0.6 and 0.4. -/
def scoreOne (minP maxP : ℚ) (k : ServiceCategory) (c : Provider) : Scored :=
  let price := resolvedPrice c k
  let priceScore := normPrice minP maxP price
  let ratingScore := (c.rating.getD 0) / 5
  { provider := c, price := price,
    valueScore := ratingScore * (6 / 10) + priceScore * (4 / 10) }

/-- MaintenanceRequestDetail.jsx lines 118 to 133: the scored array,
mapping scoreOne over the pool with the pool price extrema. -/
def scoreAll (cands : List Provider) (k : ServiceCategory) : List Scored :=
  cands.map (scoreOne (minPrices (priceList cands k)) (maxPrices (priceList cands k)) k)

/-- The boolean order the descending stable sort uses: the comparator
(a, b) => b.valueScore - a.valueScore keeps a before b exactly when
b.valueScore <= a.valueScore. -/
def valueLe (a b : Scored) : Bool := decide (b.valueScore ≤ a.valueScore)

/-- MaintenanceRequestDetail.jsx line 135: the stable descending sort by
valueScore. -/
def sortScored (l : List Scored) : List Scored := l.mergeSort valueLe

/-- MaintenanceRequestDetail.jsx line 137: the full ranked list handed
to setAreaContractors. -/
def areaContractors (roster : List Provider) (title : Option Str)
    (prop : Option PropertyInfo) : List Scored :=
  sortScored (scoreAll (candidates roster prop) (classifyService title))

/-- MaintenanceRequestDetail.jsx line 136: scored.slice(0, 3) handed to
setSuggestedContractors. -/
def suggestedContractors (roster : List Provider) (title : Option Str)
    (prop : Option PropertyInfo) : List Scored :=
  (sortScored (scoreAll (candidates roster prop) (classifyService title))).take 3

/-- The recommend composition of the specification: classify, filter
with fallback, score and rank, take the first topN. -/
def recommend (roster : List Provider) (title : Option Str)
    (prop : Option PropertyInfo) (topN : Nat) : List Scored :=
  (sortScored (scoreAll (candidates roster prop) (classifyService title))).take topN

/-- Provider A of the ranking example of the specification:
rating 4.9, general price 200. -/
def provA : Provider :=
  { id := ['A'], rating := some (49 / 10), areas := [],
    prices := some { plumbing := none, electrical := none, general := some 200 } }

/-- Provider B of the ranking example: rating 4.5, general price 150. -/
def provB : Provider :=
  { id := ['B'], rating := some (45 / 10), areas := [],
    prices := some { plumbing := none, electrical := none, general := some 150 } }

/-- Provider C of the ranking example: rating 4.0, general price 999. -/
def provC : Provider :=
  { id := ['C'], rating := some 4, areas := [],
    prices := some { plumbing := none, electrical := none, general := some 999 } }

/-- A provider whose plumbing quote is the (falsy) number 0 and whose
general quote is 150: the input separating the || chain of the code
from the ?? chain of the specification. -/
def zeroQuoteProv : Provider :=
  { id := ['z'], rating := none, areas := [],
    prices := some { plumbing := some 0, electrical := none, general := some 150 } }

/-- The title "toilet light", matching a plumbing and an electrical
keyword at once. -/
def titleToiletLight : Str :=
  ['t', 'o', 'i', 'l', 'e', 't', ' ', 'l', 'i', 'g', 'h', 't']

/-- The title "Toilet is broken". -/
def titleToiletBroken : Str :=
  ['T', 'o', 'i', 'l', 'e', 't', ' ', 'i', 's', ' ', 'b', 'r', 'o', 'k', 'e', 'n']

/-- The title "Light fixture broken". -/
def titleLightFixture : Str :=
  ['L', 'i', 'g', 'h', 't', ' ', 'f', 'i', 'x', 't', 'u', 'r', 'e', ' ',
   'b', 'r', 'o', 'k', 'e', 'n']

/-- The title "General mess". -/
def titleGeneralMess : Str :=
  ['G', 'e', 'n', 'e', 'r', 'a', 'l', ' ', 'm', 'e', 's', 's']

/-- A provider with no rating and no price table: its resolved price is
the sentinel 999 in every category. -/
def tieP1 : Provider := { id := ['p', '1'], rating := none, areas := [], prices := none }

/-- A provider with rating 5 and no price table, sitting between the two
tied providers in the stability witness pool. -/
def tieMid : Provider := { id := ['m'], rating := some 5, areas := [], prices := none }

/-- A second provider with no rating and no price table: it ties with
tieP1 on valueScore in every pool that contains both. -/
def tieP2 : Provider := { id := ['p', '2'], rating := none, areas := [], prices := none }

/-- A provider with the integer rating 4 and no price table, used to
instantiate the score-bounds theorem. -/
def wProv : Provider := { id := ['w'], rating := some 4, areas := [], prices := none }

/-! Helper lemmas about the embedding. -/

/-- Projection of scoreOne: the spread provider record. -/
@[simp] lemma scoreOne_provider (minP maxP : ℚ) (k : ServiceCategory) (c : Provider) :
    (scoreOne minP maxP k c).provider = c := rfl

/-- Projection of scoreOne: the resolved price. -/
@[simp] lemma scoreOne_price (minP maxP : ℚ) (k : ServiceCategory) (c : Provider) :
    (scoreOne minP maxP k c).price = resolvedPrice c k := rfl

/-- Projection of scoreOne: the blended value score. -/
@[simp] lemma scoreOne_valueScore (minP maxP : ℚ) (k : ServiceCategory) (c : Provider) :
    (scoreOne minP maxP k c).valueScore
      = (c.rating.getD 0) / 5 * (6 / 10)
        + normPrice minP maxP (resolvedPrice c k) * (4 / 10) := rfl

/-- A left fold of min is at most its initial value. -/
lemma foldl_min_le_init (l : List ℚ) (a : ℚ) : l.foldl min a ≤ a := by
  induction l generalizing a with
  | nil => exact le_refl a
  | cons b t ih => exact le_trans (ih (min a b)) (min_le_left a b)

/-- A left fold of min is at most any member of the list. -/
lemma foldl_min_le_mem {l : List ℚ} {x : ℚ} (h : x ∈ l) (a : ℚ) : l.foldl min a ≤ x := by
  induction l generalizing a with
  | nil => cases h
  | cons b t ih =>
    rcases List.mem_cons.mp h with hb | ht
    · subst hb
      exact le_trans (foldl_min_le_init t (min a x)) (min_le_right a x)
    · exact ih ht (min a b)

/-- The pool minimum is at most any member price. -/
lemma minPrices_le_mem {l : List ℚ} {x : ℚ} (h : x ∈ l) : minPrices l ≤ x := by
  cases l with
  | nil => cases h
  | cons p ps =>
    rcases List.mem_cons.mp h with hp | hps
    · subst hp
      exact foldl_min_le_init ps x
    · exact foldl_min_le_mem hps p

/-- A left fold of max is at least its initial value. -/
lemma init_le_foldl_max (l : List ℚ) (a : ℚ) : a ≤ l.foldl max a := by
  induction l generalizing a with
  | nil => exact le_refl a
  | cons b t ih => exact le_trans (le_max_left a b) (ih (max a b))

/-- A left fold of max is at least any member of the list. -/
lemma mem_le_foldl_max {l : List ℚ} {x : ℚ} (h : x ∈ l) (a : ℚ) : x ≤ l.foldl max a := by
  induction l generalizing a with
  | nil => cases h
  | cons b t ih =>
    rcases List.mem_cons.mp h with hb | ht
    · subst hb
      exact le_trans (le_max_right a x) (init_le_foldl_max t (max a x))
    · exact ih ht (max a b)

/-- Any member price is at most the pool maximum. -/
lemma mem_le_maxPrices {l : List ℚ} {x : ℚ} (h : x ∈ l) : x ≤ maxPrices l := by
  cases l with
  | nil => cases h
  | cons p ps =>
    rcases List.mem_cons.mp h with hp | hps
    · subst hp
      exact init_le_foldl_max ps x
    · exact mem_le_foldl_max hps p

/-- A left fold of min over a constant list is the constant. -/
lemma foldl_min_const (t : List ℚ) : ∀ a : ℚ, (∀ x ∈ t, x = a) → t.foldl min a = a := by
  induction t with
  | nil => intro a _; rfl
  | cons b s ih =>
    intro a h
    rw [List.foldl_cons, h b (List.mem_cons_self b s), min_self]
    exact ih a fun x hx => h x (List.mem_cons_of_mem b hx)

/-- A left fold of max over a constant list is the constant. -/
lemma foldl_max_const (t : List ℚ) : ∀ a : ℚ, (∀ x ∈ t, x = a) → t.foldl max a = a := by
  induction t with
  | nil => intro a _; rfl
  | cons b s ih =>
    intro a h
    rw [List.foldl_cons, h b (List.mem_cons_self b s), max_self]
    exact ih a fun x hx => h x (List.mem_cons_of_mem b hx)

/-- The pool minimum of a nonempty constant price list is the constant. -/
lemma minPrices_const {l : List ℚ} {a : ℚ} (ha : a ∈ l) (h : ∀ x ∈ l, x = a) :
    minPrices l = a := by
  cases l with
  | nil => cases ha
  | cons q qs =>
    show qs.foldl min q = a
    rw [h q (List.mem_cons_self q qs)]
    exact foldl_min_const qs a fun x hx => h x (List.mem_cons_of_mem q hx)

/-- The pool maximum of a nonempty constant price list is the constant. -/
lemma maxPrices_const {l : List ℚ} {a : ℚ} (ha : a ∈ l) (h : ∀ x ∈ l, x = a) :
    maxPrices l = a := by
  cases l with
  | nil => cases ha
  | cons q qs =>
    show qs.foldl max q = a
    rw [h q (List.mem_cons_self q qs)]
    exact foldl_max_const qs a fun x hx => h x (List.mem_cons_of_mem q hx)

/-- Every candidate comes from the input roster, whichever branch the
area filter and its fallback take. -/
lemma mem_candidates {c : Provider} {roster : List Provider} {prop : Option PropertyInfo}
    (h : c ∈ candidates roster prop) : c ∈ roster := by
  unfold candidates at h
  split at h
  · cases prop with
    | none => exact h
    | some p => exact (List.mem_filter.mp h).1
  · exact h

/-- The comparator order is transitive. -/
lemma valueLe_trans (a b c : Scored) (h1 : valueLe a b = true) (h2 : valueLe b c = true) :
    valueLe a c = true := by
  simp only [valueLe, decide_eq_true_eq] at h1 h2 ⊢
  exact le_trans h2 h1

/-- The comparator order is total. -/
lemma valueLe_total (a b : Scored) : (valueLe a b || valueLe b a) = true := by
  simp only [valueLe, Bool.or_eq_true, decide_eq_true_eq]
  exact le_total b.valueScore a.valueScore

/-- The price score of a price lying between the pool extrema is in the
unit interval. -/
lemma normPrice_bounds {minP maxP p : ℚ} (h1 : minP ≤ p) (h2 : p ≤ maxP) :
    0 ≤ normPrice minP maxP p ∧ normPrice minP maxP p ≤ 1 := by
  rw [normPrice]
  split_ifs with h
  · exact ⟨zero_le_one, le_refl 1⟩
  · have hlt : minP < maxP := lt_of_le_of_ne (le_trans h1 h2) (Ne.symm h)
    constructor
    · apply div_nonneg <;> linarith
    · rw [div_le_one (by linarith)]
      linarith

/-- Area filtering of the empty roster yields the empty list. -/
lemma inArea_nil (prop : Option PropertyInfo) : inArea [] prop = [] := by
  cases prop <;> rfl

/-- The candidate pool of the empty roster is empty. -/
lemma candidates_nil (prop : Option PropertyInfo) : candidates [] prop = [] := by
  unfold candidates
  rw [inArea_nil]
  rfl

/-- C2: for every roster and every property none of whose location text
contains any service-area entry of any provider, the area filter yields
zero providers and the fallback hands the full original roster to
scoring; and for every nonempty roster the candidate pool is nonempty.
The pipeline is a total function of its inputs, so the filtering step
cannot throw. -/
theorem C2_area_fallback :
    (∀ (roster : List Provider) (p : PropertyInfo),
        (∀ c ∈ roster, ∀ a ∈ c.areas, includesStr (areaStr p) (lower a) = false) →
        candidates roster (some p) = roster)
    ∧ (∀ (roster : List Provider) (prop : Option PropertyInfo),
        roster ≠ [] → candidates roster prop ≠ []) := by
  constructor
  · intro roster p h
    have hfilter : inArea roster (some p) = [] := by
      apply List.filter_eq_nil_iff.mpr
      intro c hc
      simp only [List.any_eq_true, not_exists, not_and, Bool.not_eq_true]
      intro a ha
      exact h c hc a ha
    unfold candidates
    rw [hfilter]
    rfl
  · intro roster prop hne
    unfold candidates
    split_ifs with h
    · intro hcontra
      rw [hcontra] at h
      simp at h
    · exact hne

/-- C3 counterexample: for the provider whose plumbing quote is 0 and
whose general quote is 150, the code (the || chain) resolves the
plumbing price to 150 while the nullish chain of the claim resolves it
to 0, so the claimed formula does not describe the code. -/
theorem C3_counterexample :
    resolvedPrice zeroQuoteProv ServiceCategory.plumbing = 150
    ∧ resolvedPriceNullish zeroQuoteProv ServiceCategory.plumbing = 0
    ∧ ¬ (resolvedPrice zeroQuoteProv ServiceCategory.plumbing
          = resolvedPriceNullish zeroQuoteProv ServiceCategory.plumbing) := by
  refine ⟨rfl, rfl, ?_⟩
  intro h
  have : (150 : ℚ) = 0 := h
  norm_num at this

/-- C3 as amended: the code resolves the price with the truthiness
chain priceTable[category] || priceTable[general] || 999, so a quote
that is present and nonzero is used as is, a quote that is absent or
zero falls back to the general quote, and when that one is also absent
or zero the sentinel 999 is used; no case raises. -/
theorem C3_price_resolution_truthy (c : Provider) (k : ServiceCategory) :
    (∀ v : ℚ, priceAt c k = some v → v ≠ 0 → resolvedPrice c k = v)
    ∧ ((priceAt c k).getD 0 = 0 →
        ∀ w : ℚ, priceAt c ServiceCategory.general = some w → w ≠ 0 →
          resolvedPrice c k = w)
    ∧ ((priceAt c k).getD 0 = 0 → (priceAt c ServiceCategory.general).getD 0 = 0 →
        resolvedPrice c k = 999) := by
  refine ⟨?_, ?_, ?_⟩
  · intro v hv hv0
    rw [resolvedPrice, hv]
    simp [jsOr, hv0]
  · intro h0 w hw hw0
    rw [resolvedPrice, hw]
    cases hk : priceAt c k with
    | none => simp [jsOr, hw0]
    | some v =>
      rw [hk] at h0
      simp only [Option.getD_some] at h0
      subst h0
      simp [jsOr, hw0]
  · intro h0 hg
    rw [resolvedPrice]
    cases hk : priceAt c k with
    | none =>
      cases hgk : priceAt c ServiceCategory.general with
      | none => rfl
      | some w =>
        rw [hgk] at hg
        simp only [Option.getD_some] at hg
        subst hg
        simp [jsOr]
    | some v =>
      rw [hk] at h0
      simp only [Option.getD_some] at h0
      subst h0
      cases hgk : priceAt c ServiceCategory.general with
      | none => rfl
      | some w =>
        rw [hgk] at hg
        simp only [Option.getD_some] at hg
        subst hg
        simp [jsOr]

/-- C4: service classification is total and returns one of the three
category literals; a lower-cased title containing a plumbing keyword
classifies as plumbing whatever else it contains, a title with no
plumbing keyword but an electrical keyword classifies as electrical,
and a title with neither classifies as general; the concrete examples
of the specification, including the tie-breaking title "toilet light",
evaluate as claimed, and an absent title classifies as general. -/
theorem C4_classify_total_and_ordered :
    (∀ title : Option Str,
        classifyService title = ServiceCategory.plumbing
        ∨ classifyService title = ServiceCategory.electrical
        ∨ classifyService title = ServiceCategory.general)
    ∧ (∀ title : Option Str, hasPlumbingKw title = true →
        classifyService title = ServiceCategory.plumbing)
    ∧ (∀ title : Option Str, hasPlumbingKw title = false → hasElectricalKw title = true →
        classifyService title = ServiceCategory.electrical)
    ∧ (∀ title : Option Str, hasPlumbingKw title = false → hasElectricalKw title = false →
        classifyService title = ServiceCategory.general)
    ∧ classifyService (some titleToiletLight) = ServiceCategory.plumbing
    ∧ classifyService (some titleToiletBroken) = ServiceCategory.plumbing
    ∧ classifyService (some titleLightFixture) = ServiceCategory.electrical
    ∧ classifyService (some titleGeneralMess) = ServiceCategory.general
    ∧ classifyService none = ServiceCategory.general := by
  refine ⟨?_, ?_, ?_, ?_, by decide, by decide, by decide, by decide, by decide⟩
  · intro t
    unfold classifyService
    split_ifs
    · exact Or.inl rfl
    · exact Or.inr (Or.inl rfl)
    · exact Or.inr (Or.inr rfl)
  · intro t h
    simp [classifyService, h]
  · intro t h1 h2
    simp [classifyService, h1, h2]
  · intro t h1 h2
    simp [classifyService, h1, h2]

/-- C5: when every pair of candidates in the pool resolves to the same
price, the guard maxPrice == minPrice holds, every price score in the
pool is exactly 1, and the division branch (the one with the possibly
zero denominator) is never taken. -/
theorem C5_priceScore_degenerate (cands : List Provider) (k : ServiceCategory)
    (h : ∀ c₁ ∈ cands, ∀ c₂ ∈ cands, resolvedPrice c₁ k = resolvedPrice c₂ k) :
    ∀ p ∈ priceList cands k,
      normPrice (minPrices (priceList cands k)) (maxPrices (priceList cands k)) p = 1 := by
  intro p hp
  obtain ⟨c₀, hc₀, rfl⟩ := List.mem_map.mp hp
  have hall : ∀ x ∈ priceList cands k, x = resolvedPrice c₀ k := by
    intro x hx
    obtain ⟨c₁, hc₁, rfl⟩ := List.mem_map.mp hx
    exact h c₁ hc₁ c₀ hc₀
  rw [normPrice, minPrices_const hp hall, maxPrices_const hp hall, if_pos rfl]

/-- C5 witness: in the one-provider pool with no price table the single
resolved price is the sentinel 999 and its price score is 1. -/
theorem C5_witness :
    normPrice (minPrices (priceList [tieP1] ServiceCategory.general))
      (maxPrices (priceList [tieP1] ServiceCategory.general)) 999 = 1 :=
  C5_priceScore_degenerate [tieP1] ServiceCategory.general (by decide) 999 (by decide)

/-- C8: the pipeline is a total function over every combination of
roster, title and property (each possibly absent or empty); on the
empty roster it returns the empty list for every topN, and both views
of the code (the suggested slice and the full ranked list) are empty. -/
theorem C8_empty_roster_total :
    (∀ (title : Option Str) (prop : Option PropertyInfo) (topN : Nat),
        recommend [] title prop topN = [])
    ∧ (∀ (title : Option Str) (prop : Option PropertyInfo),
        areaContractors [] title prop = [] ∧ suggestedContractors [] title prop = []) := by
  have hscore : ∀ (title : Option Str) (prop : Option PropertyInfo),
      sortScored (scoreAll (candidates [] prop) (classifyService title)) = [] := by
    intro title prop
    rw [candidates_nil]
    simp [scoreAll, sortScored, priceList]
  constructor
  · intro title prop topN
    rw [recommend, hscore]
    exact List.take_nil
  · intro title prop
    constructor
    · rw [areaContractors, hscore]
    · rw [suggestedContractors, hscore]
      rfl

/-- C1: every ranked candidate's blended score is the 60/40 blend of
its normalized rating and its pool-normalized price score, and on the
three-provider example pool A (rating 4.9, general 200), B (4.5, 150),
C (4.0, 999) under category general, the ranked output order is
A, B, C. -/
theorem C1_blend_formula_and_example :
    (∀ (roster : List Provider) (title : Option Str) (prop : Option PropertyInfo),
        ∀ s ∈ areaContractors roster title prop,
          s.valueScore
            = (s.provider.rating.getD 0) / 5 * (6 / 10)
              + normPrice
                  (minPrices (priceList (candidates roster prop) (classifyService title)))
                  (maxPrices (priceList (candidates roster prop) (classifyService title)))
                  (resolvedPrice s.provider (classifyService title)) * (4 / 10))
    ∧ (areaContractors [provA, provB, provC] none none).map (fun s => s.provider.id)
        = [['A'], ['B'], ['C']] := by
  constructor
  · intro roster title prop s hs
    obtain ⟨c, hc, rfl⟩ := List.mem_map.mp (List.mem_mergeSort.mp hs)
    rfl
  · have hk : classifyService none = ServiceCategory.general := by decide
    have hcand : candidates [provA, provB, provC] none = [provA, provB, provC] := rfl
    have hpl : priceList [provA, provB, provC] ServiceCategory.general
        = [200, 150, 999] := by
      norm_num [priceList, resolvedPrice, priceAt, jsOr, provA, provB, provC, PriceTable.get]
    have hmin : minPrices [(200 : ℚ), 150, 999] = 150 := by
      norm_num [minPrices, min_def]
    have hmax : maxPrices [(200 : ℚ), 150, 999] = 999 := by
      norm_num [maxPrices, max_def]
    have hsorted : List.Pairwise (fun a b => valueLe a b = true)
        (scoreAll [provA, provB, provC] ServiceCategory.general) := by
      unfold scoreAll
      rw [hpl, hmin, hmax]
      simp only [List.map, List.pairwise_cons, List.mem_cons, List.mem_singleton,
        List.not_mem_nil, valueLe, decide_eq_true_eq,
        scoreOne_valueScore]
      norm_num [provA, provB, provC, resolvedPrice, priceAt, jsOr, PriceTable.get, normPrice]
    unfold areaContractors sortScored
    rw [hk, hcand, List.mergeSort_of_sorted hsorted]
    unfold scoreAll
    rw [hpl, hmin, hmax]
    simp [provA, provB, provC]

/-- C6: the descending sort by valueScore is stable — for every
candidate pool, two candidates whose blended scores (taken against the
pool price extrema) are equal keep, in the ranked output, the relative
order they had in the input candidate list. The ranking is a pure
function of the input list, hence deterministic for a fixed input. -/
theorem C6_sort_stable (cands : List Provider) (k : ServiceCategory) (c₁ c₂ : Provider)
    (hsub : [c₁, c₂].Sublist cands)
    (heq : (scoreOne (minPrices (priceList cands k)) (maxPrices (priceList cands k)) k c₁).valueScore
        = (scoreOne (minPrices (priceList cands k)) (maxPrices (priceList cands k)) k c₂).valueScore) :
    [scoreOne (minPrices (priceList cands k)) (maxPrices (priceList cands k)) k c₁,
      scoreOne (minPrices (priceList cands k)) (maxPrices (priceList cands k)) k c₂].Sublist
      (sortScored (scoreAll cands k)) := by
  apply List.sublist_mergeSort valueLe_trans valueLe_total
  · refine List.pairwise_cons.mpr ⟨?_, List.pairwise_singleton _ _⟩
    intro s hs
    rw [List.mem_singleton.mp hs]
    simp only [valueLe, decide_eq_true_eq]
    rw [heq]
  · exact List.Sublist.map _ hsub

/-- C6 witness: in the pool of the two untied providers around a
rated one, the two providers with no rating and no prices tie on
valueScore and keep their input order in the ranked output. -/
theorem C6_witness :
    [scoreOne (minPrices (priceList [tieP1, tieMid, tieP2] ServiceCategory.general))
        (maxPrices (priceList [tieP1, tieMid, tieP2] ServiceCategory.general))
        ServiceCategory.general tieP1,
      scoreOne (minPrices (priceList [tieP1, tieMid, tieP2] ServiceCategory.general))
        (maxPrices (priceList [tieP1, tieMid, tieP2] ServiceCategory.general))
        ServiceCategory.general tieP2].Sublist
      (sortScored (scoreAll [tieP1, tieMid, tieP2] ServiceCategory.general)) :=
  C6_sort_stable [tieP1, tieMid, tieP2] ServiceCategory.general tieP1 tieP2 (by decide) rfl

/-- C7: in every pool whose providers all carry a rating between 0 and
5 (an absent rating counts as 0, as in the code), every ranked
candidate has a blended value score in the closed unit interval. -/
theorem C7_score_bounds (roster : List Provider) (title : Option Str)
    (prop : Option PropertyInfo)
    (hr : ∀ c ∈ roster, 0 ≤ c.rating.getD 0 ∧ c.rating.getD 0 ≤ 5) :
    ∀ s ∈ areaContractors roster title prop, 0 ≤ s.valueScore ∧ s.valueScore ≤ 1 := by
  intro s hs
  obtain ⟨c, hc, rfl⟩ := List.mem_map.mp (List.mem_mergeSort.mp hs)
  have hp_mem : resolvedPrice c (classifyService title)
      ∈ priceList (candidates roster prop) (classifyService title) :=
    List.mem_map.mpr ⟨c, hc, rfl⟩
  have hps := normPrice_bounds (minPrices_le_mem hp_mem) (mem_le_maxPrices hp_mem)
  obtain ⟨hr0, hr5⟩ := hr c (mem_candidates hc)
  rw [scoreOne_valueScore]
  constructor
  · have h1 : 0 ≤ (c.rating.getD 0) / 5 * (6 / 10) := by positivity
    nlinarith [hps.1]
  · have h2 : (c.rating.getD 0) / 5 * (6 / 10) ≤ 6 / 10 := by nlinarith
    nlinarith [hps.2]

/-- C7 witness: the single provider with rating 4 and no prices has its
value score inside the unit interval. -/
theorem C7_witness :
    0 ≤ (scoreOne 999 999 ServiceCategory.general wProv).valueScore
    ∧ (scoreOne 999 999 ServiceCategory.general wProv).valueScore ≤ 1 :=
  C7_score_bounds [wProv] none none (by decide)
    (scoreOne 999 999 ServiceCategory.general wProv)
    (List.mem_mergeSort.mpr (List.mem_singleton.mpr rfl))

/-- C9: the suggested list is exactly the first three entries of the
full ranked list over the same pool, and the full ranked list is in
descending valueScore order, so the slice holds the three
highest-scoring candidates. -/
theorem C9_top3_truncation :
    (∀ (roster : List Provider) (title : Option Str) (prop : Option PropertyInfo),
        suggestedContractors roster title prop = (areaContractors roster title prop).take 3)
    ∧ (∀ (roster : List Provider) (title : Option Str) (prop : Option PropertyInfo),
        List.Pairwise (fun a b : Scored => b.valueScore ≤ a.valueScore)
          (areaContractors roster title prop)) := by
  constructor
  · intro roster title prop
    rfl
  · intro roster title prop
    have h := List.sorted_mergeSort valueLe_trans valueLe_total
      (scoreAll (candidates roster prop) (classifyService title))
    exact h.imp fun hab => by simpa [valueLe] using hab

/-- A truthiness fallback of nonnegative options over a positive
default is strictly positive. -/
lemma jsOr_pos {x : Option ℚ} {y : ℚ} (hx : ∀ v ∈ x, 0 ≤ v) (hy : 0 < y) :
    0 < jsOr x y := by
  cases x with
  | none => exact hy
  | some v =>
    rcases eq_or_ne v 0 with h0 | h0
    · simp [jsOr, h0, hy]
    · have hvpos : 0 < v := lt_of_le_of_ne (hx v rfl) (Ne.symm h0)
      simp [jsOr, h0, hvpos]

/-- C10: with every listed quote nonnegative (the data model of the
specification quotes positive prices; zero is the boundary case the ||
chain treats as absent), the resolved price is strictly positive: a
zero quote for the matched category falls through to the general quote
and a zero general quote falls through to the sentinel 999. -/
theorem C10_resolved_price_positive (c : Provider) (k : ServiceCategory)
    (h1 : ∀ v ∈ priceAt c k, 0 ≤ v)
    (h2 : ∀ v ∈ priceAt c ServiceCategory.general, 0 ≤ v) :
    0 < resolvedPrice c k
    ∧ (priceAt c k = some 0 →
        ∀ w : ℚ, priceAt c ServiceCategory.general = some w → w ≠ 0 →
          resolvedPrice c k = w)
    ∧ (priceAt c k = some 0 → priceAt c ServiceCategory.general = some 0 →
        resolvedPrice c k = 999) := by
  refine ⟨jsOr_pos h1 (jsOr_pos h2 (by norm_num)), ?_, ?_⟩
  · intro hk w hw hw0
    rw [resolvedPrice, hk, hw]
    simp [jsOr, hw0]
  · intro hk hg
    rw [resolvedPrice, hk, hg]
    simp [jsOr]

/-- C10 witness: the provider quoting 0 for plumbing and 150 for
general resolves its plumbing price to a strictly positive value, with
the zero quote falling through as described. -/
theorem C10_witness :
    0 < resolvedPrice zeroQuoteProv ServiceCategory.plumbing
    ∧ (priceAt zeroQuoteProv ServiceCategory.plumbing = some 0 →
        ∀ w : ℚ, priceAt zeroQuoteProv ServiceCategory.general = some w → w ≠ 0 →
          resolvedPrice zeroQuoteProv ServiceCategory.plumbing = w)
    ∧ (priceAt zeroQuoteProv ServiceCategory.plumbing = some 0 →
        priceAt zeroQuoteProv ServiceCategory.general = some 0 →
          resolvedPrice zeroQuoteProv ServiceCategory.plumbing = 999) :=
  C10_resolved_price_positive zeroQuoteProv ServiceCategory.plumbing (by decide) (by decide)

end Repairo
